import Mathlib

/-!
Verification of the timer-scheduled ALSA capture source (alsa-source.c) and the
Avahi event-loop bridge (avahi-wrap.c) of this repository, by shallow embedding.

Machine integers are modelled as `Nat` (all quantities in the engine are
non-negative byte counts, frame counts or microsecond counts); the one place
where unsigned wrap-around matters (the final sleep computation of the capture
paths, a `uint64_t` subtraction) is modelled explicitly with `wsub64`.
External driver calls (snd_pcm_avail, snd_pcm_mmap_begin, snd_pcm_mmap_commit,
snd_pcm_readi, snd_pcm_open, pa_alsa_set_hw_params, ...) are modelled as
oracles: a list of responses consumed call by call.
-/

/-- Microseconds per second (PA_USEC_PER_SEC). -/
def PA_USEC_PER_SEC : Nat := 1000000

/-- Microseconds per millisecond (PA_USEC_PER_MSEC). -/
def PA_USEC_PER_MSEC : Nat := 1000

/-- TSCHED_WATERMARK_STEP_USEC = 10ms. -/
def TSCHED_WATERMARK_STEP_USEC : Nat := 10 * PA_USEC_PER_MSEC

/-- TSCHED_MIN_SLEEP_USEC = 10ms. -/
def TSCHED_MIN_SLEEP_USEC : Nat := 10 * PA_USEC_PER_MSEC

/-- TSCHED_MIN_WAKEUP_USEC = 4ms. -/
def TSCHED_MIN_WAKEUP_USEC : Nat := 4 * PA_USEC_PER_MSEC

/-- PA_VOLUME_NORM = 0x10000, the normalized volume scale. -/
def PA_VOLUME_NORM : Nat := 65536

/-- Sample specification (pa_sample_spec). The spec defines
FrameSize = channels x sample-width as a derived, per-session-immutable
quantity; the sample-format width table lives outside the sources given here,
so the frame size is carried as a field alongside the raw format tag. -/
structure SampleSpec where
  format : Nat
  rate : Nat
  channels : Nat
  frame_size : Nat
deriving DecidableEq, Repr

/-- Conversion of a byte count to microseconds under a sample spec
(pa_bytes_to_usec): bytes are divided into frames, then scaled by the rate.
Modelled from the spec: the pulse/sample.c helper is not among the given
sources; the spec fixes it as the bytes-to-time conversion under the
negotiated sample spec. -/
def pa_bytes_to_usec (length : Nat) (ss : SampleSpec) : Nat :=
  length / ss.frame_size * PA_USEC_PER_SEC / ss.rate

/-- Conversion of microseconds to a frame-aligned byte count
(pa_usec_to_bytes). Modelled from the spec, as for pa_bytes_to_usec. -/
def pa_usec_to_bytes (t : Nat) (ss : SampleSpec) : Nat :=
  t * ss.rate / PA_USEC_PER_SEC * ss.frame_size

/-- Round a byte count down to a whole number of frames (pa_frame_align).
Modelled from the spec ("frame-aligned"). -/
def pa_frame_align (l : Nat) (ss : SampleSpec) : Nat :=
  l / ss.frame_size * ss.frame_size

/-- The PA_CLAMP macro: x clamped into [lo, hi], testing the upper bound
first, exactly as the macro expands. -/
def PA_CLAMP (x lo hi : Nat) : Nat :=
  if x > hi then hi else if x < lo then lo else x

/-- The fields of struct userdata (alsa-source.c) that the verified claims
touch, together with the per-thread fields of the downstream source object
that the engine reads and writes (requested latency, latency range,
read_count) and the mixer volume range. -/
structure Userdata where
  sample_spec : SampleSpec
  frame_size : Nat
  fragment_size : Nat
  hwbuf_size : Nat
  tsched_watermark : Nat
  hwbuf_unused : Nat
  min_sleep : Nat
  min_wakeup : Nat
  watermark_step : Nat
  nfragments : Nat
  use_mmap : Bool
  use_tsched : Bool
  pcm_handle : Bool
  read_count : Nat
  requested_latency : Option Nat
  min_latency : Nat
  max_latency : Nat
  mempool_block_size_max : Nat
  hw_volume_min : Int
  hw_volume_max : Int
deriving DecidableEq, Repr

/-- fix_min_sleep_wakeup: re-clamp min_sleep and min_wakeup to
[frame_size, frame-aligned half of (hwbuf_size - hwbuf_unused)]. -/
def fix_min_sleep_wakeup (u : Userdata) : Userdata :=
  let max_use := u.hwbuf_size - u.hwbuf_unused
  let max_use_2 := pa_frame_align (max_use / 2) u.sample_spec
  let ms := PA_CLAMP (pa_usec_to_bytes TSCHED_MIN_SLEEP_USEC u.sample_spec)
      u.frame_size max_use_2
  let mw := PA_CLAMP (pa_usec_to_bytes TSCHED_MIN_WAKEUP_USEC u.sample_spec)
      u.frame_size max_use_2
  { u with min_sleep := ms, min_wakeup := mw }

/-- fix_tsched_watermark: clamp the watermark from above by
(hwbuf_size - hwbuf_unused) - min_sleep, then from below by min_wakeup. -/
def fix_tsched_watermark (u : Userdata) : Userdata :=
  let max_use := u.hwbuf_size - u.hwbuf_unused
  let w1 := if u.tsched_watermark > max_use - u.min_sleep
      then max_use - u.min_sleep else u.tsched_watermark
  let w2 := if w1 < u.min_wakeup then u.min_wakeup else w1
  { u with tsched_watermark := w2 }

/-- adjust_after_overrun: first try to raise the watermark
(doubled, capped by +watermark_step, re-clamped); if that did not change it,
raise the source minimum latency (doubled, capped by +10ms, clamped to the
maximum latency) via pa_source_set_latency_range_within_thread. -/
def adjust_after_overrun (u : Userdata) : Userdata :=
  let old_watermark := u.tsched_watermark
  let w := min (u.tsched_watermark * 2) (u.tsched_watermark + u.watermark_step)
  let u1 := fix_tsched_watermark { u with tsched_watermark := w }
  if old_watermark ≠ u1.tsched_watermark then
    u1
  else
    let old_min_latency := u.min_latency
    let new_min_latency :=
      min (min (old_min_latency * 2) (old_min_latency + TSCHED_WATERMARK_STEP_USEC))
        u.max_latency
    if old_min_latency ≠ new_min_latency then
      { u1 with min_latency := new_min_latency }
    else
      u1

/-- hw_sleep_time: compute (buffer time, sleep budget, process budget).
The buffer time is the requested latency, or the full hardware buffer when
none is requested; the watermark in time form is halved-to-L/2 when it
exceeds the buffer time. -/
def hw_sleep_time (u : Userdata) : Nat × Nat × Nat :=
  let usec := match u.requested_latency with
    | some l => l
    | none => pa_bytes_to_usec u.hwbuf_size u.sample_spec
  let wm0 := pa_bytes_to_usec u.tsched_watermark u.sample_spec
  let wm := if wm0 > usec then usec / 2 else wm0
  (usec, usec - wm, wm)

/-- check_left_to_record: space still available for recording.  When avail
reports strictly more than the usable buffer this is an overrun: the result
is 0 and, under timer scheduling, adjust_after_overrun runs. -/
def check_left_to_record (u : Userdata) (n_bytes : Nat) : Nat × Userdata :=
  let rec_space := u.hwbuf_size - u.hwbuf_unused
  if n_bytes ≤ rec_space then
    (rec_space - n_bytes, u)
  else
    (0, if u.use_tsched then adjust_after_overrun u else u)

/-- Claim C1: on an overrun under timer scheduling the adjuster runs exactly:
watermark := min(2w, w + watermark_step) re-clamped, returning if changed;
otherwise min latency := min(2l, l + 10ms) clamped to max latency, returning
if changed; otherwise nothing is modified. -/
theorem overrun_adjuster_steps (u : Userdata) (n_bytes : Nat) :
    (let w' := (fix_tsched_watermark { u with tsched_watermark := min (u.tsched_watermark * 2) (u.tsched_watermark + u.watermark_step) }).tsched_watermark
     let l' := min (min (u.min_latency * 2) (u.min_latency + TSCHED_WATERMARK_STEP_USEC)) u.max_latency
     (u.use_tsched = true → n_bytes > u.hwbuf_size - u.hwbuf_unused →
       check_left_to_record u n_bytes = (0, adjust_after_overrun u)) ∧
     (u.tsched_watermark ≠ w' →
       adjust_after_overrun u = { u with tsched_watermark := w' }) ∧
     (u.tsched_watermark = w' → u.min_latency ≠ l' →
       adjust_after_overrun u = { u with min_latency := l' }) ∧
     (u.tsched_watermark = w' → u.min_latency = l' →
       adjust_after_overrun u = u)) := by
  have hu : fix_tsched_watermark { u with tsched_watermark := min (u.tsched_watermark * 2) (u.tsched_watermark + u.watermark_step) } =
      { u with tsched_watermark := (fix_tsched_watermark { u with tsched_watermark := min (u.tsched_watermark * 2) (u.tsched_watermark + u.watermark_step) }).tsched_watermark } :=
    rfl
  refine ⟨?_, ?_, ?_, ?_⟩
  · intro ht hover
    simp only [check_left_to_record, ht, if_true]
    rw [if_neg (by omega)]
  · intro h
    unfold adjust_after_overrun
    rw [if_pos h]
    exact hu
  · intro h1 h2
    unfold adjust_after_overrun
    rw [if_neg (not_not_intro h1), if_pos h2, hu, ← h1]
  · intro h1 h2
    unfold adjust_after_overrun
    rw [if_neg (not_not_intro h1), if_neg (not_not_intro h2), hu, ← h1]

/-- A concrete engine state used by the witnesses: s16le stereo at 250 kHz
(1 byte per microsecond), a 10000-byte hardware buffer of four fragments,
2000-byte watermark, timer scheduling and mmap enabled. -/
def uDemo : Userdata :=
  { sample_spec := { format := 3, rate := 250000, channels := 2, frame_size := 4 }
    frame_size := 4
    fragment_size := 2500
    hwbuf_size := 10000
    tsched_watermark := 2000
    hwbuf_unused := 0
    min_sleep := 2500
    min_wakeup := 1000
    watermark_step := 2500
    nfragments := 4
    use_mmap := true
    use_tsched := true
    pcm_handle := true
    read_count := 0
    requested_latency := none
    min_latency := 10000
    max_latency := 40000
    mempool_block_size_max := 65536
    hw_volume_min := 0
    hw_volume_max := 100 }

/-- Witness for overrun_adjuster_steps at a concrete state. -/
theorem overrun_adjuster_steps_witness :
    uDemo.use_tsched = true ∧ 10004 > uDemo.hwbuf_size - uDemo.hwbuf_unused ∧
    check_left_to_record uDemo 10004 = (0, adjust_after_overrun uDemo) :=
  ⟨by decide, by decide, (overrun_adjuster_steps uDemo 10004).1 (by decide) (by decide)⟩

/-- Claim C2: the wakeup-budget computation yields sleep = L - wm and
process = wm, where L is the requested latency (or the full hardware buffer
time when none is requested) and wm is the watermark in time form, replaced
by L/2 whenever it exceeds L. -/
theorem wakeup_budget_formula (u : Userdata) :
    (let L := match u.requested_latency with
      | some l => l
      | none => pa_bytes_to_usec u.hwbuf_size u.sample_spec
     let wm := if pa_bytes_to_usec u.tsched_watermark u.sample_spec > L
       then L / 2 else pa_bytes_to_usec u.tsched_watermark u.sample_spec
     (hw_sleep_time u).2.1 = L - wm ∧ (hw_sleep_time u).2.2 = wm) := by
  cases h : u.requested_latency <;> simp [hw_sleep_time, h]

/-- The latency-dependent part of update_sw_params: when a latency was
requested downstream, hwbuf_unused becomes hwbuf_size minus the (at least
one frame) byte form of that latency. -/
def sw_latency_adjust (u0 : Userdata) : Userdata :=
  match u0.requested_latency with
  | none => u0
  | some latency =>
    let b0 := pa_usec_to_bytes latency u0.sample_spec
    let b := if b0 < u0.frame_size then u0.frame_size else b0
    { u0 with hwbuf_unused := if b < u0.hwbuf_size then u0.hwbuf_size - b else 0 }

/-- update_sw_params: reset hwbuf_unused, recompute it from the requested
latency under timer scheduling, re-clamp min_sleep/min_wakeup and the
watermark, compute avail_min and push it to the driver; ok_sw is the oracle
outcome of pa_alsa_set_sw_params.  Returns (new state, avail_min, return). -/
def update_sw_params (u : Userdata) (ok_sw : Bool) : Userdata × Nat × Int :=
  let u0 := { u with hwbuf_unused := 0 }
  let u1 :=
    if u0.use_tsched then fix_tsched_watermark (fix_min_sleep_wakeup (sw_latency_adjust u0))
    else u0
  let avail_min :=
    if u1.use_tsched then
      1 + pa_usec_to_bytes (hw_sleep_time u1).2.1 u1.sample_spec / u1.frame_size
    else 1
  if ok_sw then (u1, avail_min, 0) else (u1, avail_min, -1)

/-- The buffer-geometry invariant of the spec (section 3):
min_wakeup <= tsched_watermark <= (hwbuf_size - hwbuf_unused) - min_sleep. -/
def tsched_invariant (u : Userdata) : Prop :=
  u.min_wakeup ≤ u.tsched_watermark ∧
  u.tsched_watermark ≤ (u.hwbuf_size - u.hwbuf_unused) - u.min_sleep

/-- PA_CLAMP lands in [lo, hi] whenever lo <= hi. -/
theorem PA_CLAMP_mem (x lo hi : Nat) (h : lo ≤ hi) :
    lo ≤ PA_CLAMP x lo hi ∧ PA_CLAMP x lo hi ≤ hi := by
  unfold PA_CLAMP
  split_ifs <;> omega

/-- Core of claim C5: one run of fix_min_sleep_wakeup followed by
fix_tsched_watermark establishes the geometry invariant, provided the
re-clamp interval [frame_size, frame-aligned half of the usable buffer] is
non-degenerate. -/
theorem fix_pair_invariant (v : Userdata)
    (h : v.frame_size ≤ pa_frame_align ((v.hwbuf_size - v.hwbuf_unused) / 2) v.sample_spec) :
    tsched_invariant (fix_tsched_watermark (fix_min_sleep_wakeup v)) := by
  have hfa : pa_frame_align ((v.hwbuf_size - v.hwbuf_unused) / 2) v.sample_spec ≤
      (v.hwbuf_size - v.hwbuf_unused) / 2 := Nat.div_mul_le_self _ _
  have hms := PA_CLAMP_mem (pa_usec_to_bytes TSCHED_MIN_SLEEP_USEC v.sample_spec)
    v.frame_size (pa_frame_align ((v.hwbuf_size - v.hwbuf_unused) / 2) v.sample_spec) h
  have hmw := PA_CLAMP_mem (pa_usec_to_bytes TSCHED_MIN_WAKEUP_USEC v.sample_spec)
    v.frame_size (pa_frame_align ((v.hwbuf_size - v.hwbuf_unused) / 2) v.sample_spec) h
  dsimp only [tsched_invariant, fix_tsched_watermark, fix_min_sleep_wakeup]
  split_ifs <;> constructor <;> omega

/-- Fields other than min_sleep, min_wakeup and tsched_watermark are
untouched by the two re-clamp helpers. -/
theorem fix_pair_hwbuf_unused (v : Userdata) :
    (fix_tsched_watermark (fix_min_sleep_wakeup v)).hwbuf_unused = v.hwbuf_unused := rfl

/-- sw_latency_adjust only rewrites hwbuf_unused. -/
theorem sw_latency_adjust_fields (u0 : Userdata) :
    (sw_latency_adjust u0).frame_size = u0.frame_size ∧
    (sw_latency_adjust u0).sample_spec = u0.sample_spec ∧
    (sw_latency_adjust u0).hwbuf_size = u0.hwbuf_size ∧
    (sw_latency_adjust u0).min_latency = u0.min_latency := by
  unfold sw_latency_adjust
  cases u0.requested_latency <;> exact ⟨rfl, rfl, rfl, rfl⟩

/-- Claim C5: after the software-parameters recomputation (and likewise
after the identical re-clamp pair run at initial configuration), the
invariant min_wakeup <= tsched_watermark <= (hwbuf_size - hwbuf_unused) -
min_sleep holds, given that min_sleep and min_wakeup were re-clamped into a
non-degenerate interval [frame_size, frame-aligned half of the usable
buffer] in the same update. -/
theorem geometry_invariant_after_update (u : Userdata) (ok : Bool)
    (ht : u.use_tsched = true)
    (h1 : u.frame_size ≤ pa_frame_align ((u.hwbuf_size - u.hwbuf_unused) / 2) u.sample_spec)
    (h2 : u.frame_size ≤ pa_frame_align ((u.hwbuf_size - (update_sw_params u ok).1.hwbuf_unused) / 2) u.sample_spec) :
    tsched_invariant (fix_tsched_watermark (fix_min_sleep_wakeup u)) ∧
    tsched_invariant (update_sw_params u ok).1 := by
  refine ⟨fix_pair_invariant u h1, ?_⟩
  have e1 : (update_sw_params u ok).1 =
      fix_tsched_watermark (fix_min_sleep_wakeup (sw_latency_adjust { u with hwbuf_unused := 0 })) := by
    cases ok <;> simp [update_sw_params, ht]
  rw [e1]
  obtain ⟨hf, hs, hb, -⟩ := sw_latency_adjust_fields { u with hwbuf_unused := 0 }
  refine fix_pair_invariant _ ?_
  rw [hf, hs, hb]
  rw [e1, fix_pair_hwbuf_unused] at h2
  exact h2

/-- Witness for geometry_invariant_after_update at the demo state. -/
theorem geometry_invariant_after_update_witness :
    uDemo.use_tsched = true ∧
    uDemo.frame_size ≤ pa_frame_align ((uDemo.hwbuf_size - uDemo.hwbuf_unused) / 2) uDemo.sample_spec ∧
    tsched_invariant (update_sw_params uDemo true).1 :=
  ⟨by decide, by decide,
    (geometry_invariant_after_update uDemo true (by decide) (by decide) (by decide)).2⟩

/-- source_get_latency: the smoother answers now2 = smoother_get(now); the
latency is now2 minus the time form of read_count, floored at zero (the C
code computes the difference in int64 and returns 0 when negative).  The
smoother is an oracle function from wall-clock time to smoothed stream
time. -/
def source_get_latency (u : Userdata) (smoother_get : Nat → Nat) (now : Nat) : Nat :=
  let now2 := smoother_get now
  let rcu := pa_bytes_to_usec u.read_count u.sample_spec
  if rcu ≤ now2 then now2 - rcu else 0

/-- The PA_SOURCE_MESSAGE_GET_LATENCY branch of source_process_msg: when the
driver handle is closed the answer is 0 and the smoother-based computation
does not run (the Bool of the result records whether it ran). -/
def process_msg_get_latency (u : Userdata) (smoother_get : Nat → Nat) (now : Nat) :
    Nat × Bool :=
  if u.pcm_handle then (source_get_latency u smoother_get now, true) else (0, false)

/-- Claim C10: with the driver handle closed (suspended source) GET_LATENCY
reports exactly 0 and is independent of the smoother; with a handle present
the smoother-based source_get_latency is used. -/
theorem get_latency_suspended_zero (u : Userdata) (s1 s2 : Nat → Nat) (now now2 : Nat) :
    (u.pcm_handle = false → process_msg_get_latency u s1 now = (0, false)) ∧
    (u.pcm_handle = false →
      process_msg_get_latency u s1 now = process_msg_get_latency u s2 now2) ∧
    (u.pcm_handle = true →
      process_msg_get_latency u s1 now = (source_get_latency u s1 now, true)) := by
  refine ⟨fun h => ?_, fun h => ?_, fun h => ?_⟩ <;>
    simp [process_msg_get_latency, h]

/-- Witness for get_latency_suspended_zero on a suspended demo state. -/
theorem get_latency_suspended_zero_witness :
    process_msg_get_latency { uDemo with pcm_handle := false } (fun t => t + 4200) 7 = (0, false) :=
  (get_latency_suspended_zero { uDemo with pcm_handle := false }
    (fun t => t + 4200) (fun _ => 0) 7 0).1 rfl

/-- PA_IO_EVENT bit flags. Modelled from the spec: the event-loop bridge
works on bitsets over INPUT, OUTPUT, ERROR, HANGUP; the numeric values come
from the mainloop-api header, which is not among the given sources (four
distinct single bits). -/
def PA_IO_EVENT_INPUT : Nat := 1

def PA_IO_EVENT_OUTPUT : Nat := 2

def PA_IO_EVENT_HANGUP : Nat := 4

def PA_IO_EVENT_ERROR : Nat := 8

/-- AvahiWatchEvent bit flags. Modelled from the spec: the external Avahi
header defines them as the poll(2) POLLIN/POLLOUT/POLLERR/POLLHUP bits
(four distinct single bits). -/
def AVAHI_WATCH_IN : Nat := 1

def AVAHI_WATCH_OUT : Nat := 4

def AVAHI_WATCH_ERR : Nat := 8

def AVAHI_WATCH_HUP : Nat := 16

/-- translate_io_flags_back (avahi-wrap.c): PulseAudio io-event flags to
Avahi watch events, bit by bit. -/
def translate_io_flags_back (e : Nat) : Nat :=
  (if e &&& PA_IO_EVENT_INPUT ≠ 0 then AVAHI_WATCH_IN else 0) |||
  (if e &&& PA_IO_EVENT_OUTPUT ≠ 0 then AVAHI_WATCH_OUT else 0) |||
  (if e &&& PA_IO_EVENT_ERROR ≠ 0 then AVAHI_WATCH_ERR else 0) |||
  (if e &&& PA_IO_EVENT_HANGUP ≠ 0 then AVAHI_WATCH_HUP else 0)

/-- translate_io_flags (avahi-wrap.c): Avahi watch events to PulseAudio
io-event flags, bit by bit. -/
def translate_io_flags (e : Nat) : Nat :=
  (if e &&& AVAHI_WATCH_IN ≠ 0 then PA_IO_EVENT_INPUT else 0) |||
  (if e &&& AVAHI_WATCH_OUT ≠ 0 then PA_IO_EVENT_OUTPUT else 0) |||
  (if e &&& AVAHI_WATCH_ERR ≠ 0 then PA_IO_EVENT_ERROR else 0) |||
  (if e &&& AVAHI_WATCH_HUP ≠ 0 then PA_IO_EVENT_HANGUP else 0)

/-- Round trip on all Avahi four-flag bitsets, by enumeration. -/
theorem translate_roundtrip_avahi :
    ∀ x, x < 30 → x &&& 29 = x → translate_io_flags_back (translate_io_flags x) = x := by
  decide

/-- Round trip on all PulseAudio four-flag bitsets, by enumeration. -/
theorem translate_roundtrip_pa :
    ∀ x, x < 16 → x &&& 15 = x → translate_io_flags (translate_io_flags_back x) = x := by
  decide

/-- Claim C9: the bridge flag translations are mutually inverse bijections
on the four-flag bitsets: any subset of {IN, OUT, ERR, HUP} round-trips
through translate_io_flags then translate_io_flags_back, and any subset of
{INPUT, OUTPUT, ERROR, HANGUP} round-trips the other way. -/
theorem io_flag_translation_bijective (a p : Nat)
    (ha : a &&& (AVAHI_WATCH_IN ||| AVAHI_WATCH_OUT ||| AVAHI_WATCH_ERR ||| AVAHI_WATCH_HUP) = a)
    (hp : p &&& (PA_IO_EVENT_INPUT ||| PA_IO_EVENT_OUTPUT ||| PA_IO_EVENT_ERROR ||| PA_IO_EVENT_HANGUP) = p) :
    translate_io_flags_back (translate_io_flags a) = a ∧
    translate_io_flags (translate_io_flags_back p) = p := by
  have ha2 : a ≤ 29 := by
    conv_lhs => rw [← ha]
    exact Nat.and_le_right
  have hp2 : p ≤ 15 := by
    conv_lhs => rw [← hp]
    exact Nat.and_le_right
  exact ⟨translate_roundtrip_avahi a (by omega) ha,
    translate_roundtrip_pa p (by omega) hp⟩

/-- Witness for io_flag_translation_bijective at IN|ERR and INPUT|OUTPUT. -/
theorem io_flag_translation_bijective_witness :
    translate_io_flags_back (translate_io_flags 9) = 9 ∧
    translate_io_flags (translate_io_flags_back 3) = 3 :=
  io_flag_translation_bijective 9 3 (by decide) (by decide)

/-- Round half away from zero of the exact nonnegative rational p/q, that
is floor(p/q + 1/2).  This models the C round() applied to the volume
conversion expressions: their operands are nonnegative and the double
arithmetic on them is exact for any realistic mixer range. -/
def rnd (p q : Nat) : Nat := (2 * p + q) / (2 * q)

/-- from_alsa_volume: map an alsa mixer value to the normalized volume
scale, rounding (alsa_vol - hw_volume_min) * PA_VOLUME_NORM / range.  The
capture engine only calls this with mixer readings inside the hardware
range, so the difference is taken in the nonnegative range. -/
def from_alsa_volume (u : Userdata) (alsa_vol : Int) : Nat :=
  rnd ((alsa_vol - u.hw_volume_min).toNat * PA_VOLUME_NORM)
    (u.hw_volume_max - u.hw_volume_min).toNat

/-- to_alsa_volume: map a normalized volume onto the alsa range and clamp
it into [hw_volume_min, hw_volume_max] (PA_CLAMP_UNLIKELY, upper bound
tested first). -/
def to_alsa_volume (u : Userdata) (vol : Nat) : Int :=
  let alsa_vol : Int :=
    (rnd (vol * (u.hw_volume_max - u.hw_volume_min).toNat) PA_VOLUME_NORM : Nat) + u.hw_volume_min
  if alsa_vol > u.hw_volume_max then u.hw_volume_max
  else if alsa_vol < u.hw_volume_min then u.hw_volume_min
  else alsa_vol

/-- Two-sided division bound for rnd: rnd p q is the floor of
(2p + q) / (2q). -/
theorem rnd_bounds (p q : Nat) (hq : 0 < q) :
    2 * q * rnd p q ≤ 2 * p + q ∧ 2 * p + q < 2 * q * rnd p q + 2 * q := by
  have h1 := Nat.div_add_mod (2 * p + q) (2 * q)
  have h2 : (2 * p + q) % (2 * q) < 2 * q := Nat.mod_lt _ (by omega)
  unfold rnd
  constructor
  · calc 2 * q * ((2 * p + q) / (2 * q)) ≤
        2 * q * ((2 * p + q) / (2 * q)) + (2 * p + q) % (2 * q) := Nat.le_add_right _ _
    _ = 2 * p + q := h1
  · calc 2 * p + q = 2 * q * ((2 * p + q) / (2 * q)) + (2 * p + q) % (2 * q) := h1.symm
    _ < 2 * q * ((2 * p + q) / (2 * q)) + 2 * q := Nat.add_lt_add_left h2 _

/-- Claim C8: for any volume in [0, PA_VOLUME_NORM] and a hardware range of
width at least 3, from_alsa_volume(to_alsa_volume(v)) differs from v by at
most one rounding step of the hardware scale, i.e. range * |result - v| is
at most PA_VOLUME_NORM. -/
theorem volume_roundtrip (u : Userdata) (v : Nat)
    (hv : v ≤ PA_VOLUME_NORM) (hr : u.hw_volume_min + 3 ≤ u.hw_volume_max) :
    (u.hw_volume_max - u.hw_volume_min) *
      |(from_alsa_volume u (to_alsa_volume u v) : ℤ) - (v : ℤ)| ≤ (PA_VOLUME_NORM : ℤ) := by
  have hNpos : 0 < PA_VOLUME_NORM := by norm_num [PA_VOLUME_NORM]
  set m := u.hw_volume_min with hm
  set M := u.hw_volume_max with hM
  set R := (M - m).toNat with hRdef
  have hR3 : 3 ≤ R := by omega
  have hRZ : (R : ℤ) = M - m := by omega
  obtain ⟨hA1, hA2⟩ := rnd_bounds (v * R) PA_VOLUME_NORM hNpos
  set a := rnd (v * R) PA_VOLUME_NORM with ha
  have haR : a ≤ R := by
    have hvR : v * R ≤ PA_VOLUME_NORM * R := Nat.mul_le_mul_right R hv
    unfold PA_VOLUME_NORM at hA1 hvR
    omega
  have hto : to_alsa_volume u v = (a : ℤ) + m := by
    unfold to_alsa_volume
    rw [← hm, ← hM, ← hRdef, ← ha]
    simp only [gt_iff_lt]
    split_ifs with h1 h2
    · exfalso
      have : (a : ℤ) ≤ (R : ℤ) := Int.ofNat_le.mpr haR
      omega
    · exfalso
      omega
    · rfl
  have hfrom : from_alsa_volume u ((a : ℤ) + m) = rnd (a * PA_VOLUME_NORM) R := by
    unfold from_alsa_volume
    rw [← hm, ← hM, ← hRdef]
    have : ((a : ℤ) + m - m).toNat = a := by omega
    rw [this]
  rw [hto, hfrom]
  obtain ⟨hT1, hT2⟩ := rnd_bounds (a * PA_VOLUME_NORM) R (by omega)
  set t := rnd (a * PA_VOLUME_NORM) R with ht
  rw [← hRZ]
  have hA1z : 2 * (PA_VOLUME_NORM : ℤ) * a ≤ 2 * ((v : ℤ) * R) + PA_VOLUME_NORM := by
    exact_mod_cast hA1
  have hA2z : 2 * ((v : ℤ) * R) + PA_VOLUME_NORM <
      2 * (PA_VOLUME_NORM : ℤ) * a + 2 * PA_VOLUME_NORM := by
    exact_mod_cast hA2
  have hT1z : 2 * (R : ℤ) * t ≤ 2 * ((a : ℤ) * PA_VOLUME_NORM) + R := by
    exact_mod_cast hT1
  have hT2z : 2 * ((a : ℤ) * PA_VOLUME_NORM) + R < 2 * (R : ℤ) * t + 2 * R := by
    exact_mod_cast hT2
  have hNz : (0 : ℤ) < (PA_VOLUME_NORM : ℤ) := by exact_mod_cast hNpos
  have hRz : (3 : ℤ) ≤ (R : ℤ) := by exact_mod_cast hR3
  rcases abs_cases ((t : ℤ) - (v : ℤ)) with ⟨habs, hsign⟩ | ⟨habs, hsign⟩ <;> rw [habs]
  · rcases eq_or_lt_of_le hsign with hz | hpos
    · rw [← hz, mul_zero]
      exact le_of_lt hNz
    · have h1 : (1 : ℤ) ≤ (t : ℤ) - v := hpos
      have h2 : (R : ℤ) * 1 ≤ (R : ℤ) * ((t : ℤ) - v) :=
        mul_le_mul_of_nonneg_left h1 (by omega)
      nlinarith [hT1z, hA1z, h2]
  · have h1 : (1 : ℤ) ≤ (v : ℤ) - t := by omega
    have h2 : (R : ℤ) * 1 ≤ (R : ℤ) * ((v : ℤ) - t) :=
      mul_le_mul_of_nonneg_left h1 (by omega)
    nlinarith [hT2z, hA2z, h2]

/-- Witness for volume_roundtrip at half volume on a 0..100 mixer range. -/
theorem volume_roundtrip_witness :
    32768 ≤ PA_VOLUME_NORM ∧ uDemo.hw_volume_min + 3 ≤ uDemo.hw_volume_max ∧
    (uDemo.hw_volume_max - uDemo.hw_volume_min) *
      |(from_alsa_volume uDemo (to_alsa_volume uDemo 32768) : ℤ) - (32768 : ℤ)| ≤
        (PA_VOLUME_NORM : ℤ) :=
  ⟨by decide, by decide, volume_roundtrip uDemo 32768 (by decide) (by decide)⟩

/-- Truncating uint64 subtraction: the C expression a - b on pa_usec_t wraps
modulo 2^64 when b exceeds a (both operands of the capture paths are far
below 2^64, so this is exact for them). -/
def wsub64 (a b : Nat) : Nat :=
  if b ≤ a then a - b else a + 18446744073709551616 - b

/-- Driver-oracle events: each ALSA call made by a capture path consumes one
event.  ok n is a successful call with numeric payload n (available frames,
granted frames, committed frames, read frames); err recovered is a negative
return whose try_recover attempt (snd_pcm_recover followed by
snd_pcm_start) succeeds exactly when recovered is true. -/
inductive DrvEvent where
  | ok (n : Nat)
  | err (recovered : Bool)
deriving DecidableEq, Repr

/-- Result of the inner (transfer) loop of a capture path. -/
structure InnerRes where
  u : Userdata
  posts : List Nat
  uncommitted : Nat
  work_done : Bool
  fatal : Bool
  events : List DrvEvent
deriving Repr

/-- Result of a whole capture-path call: final state, byte lengths of the
chunks posted downstream in order, total bytes of posted chunks whose
mmap_commit failed, the work_done flag, whether the return was fatal, the
sleep_usec output, the final left_to_record, and the unconsumed oracle. -/
structure PathRes where
  u : Userdata
  posts : List Nat
  uncommitted : Nat
  work_done : Bool
  fatal : Bool
  sleep : Nat
  left : Nat
  events : List DrvEvent
deriving Repr

/-- Inner loop of mmap_read: mmap_begin (one event), cap the granted frames
by the memory-pool block size, post a fixed chunk of the mapped bytes, then
mmap_commit (one event).  A failed commit loses the posted bytes from
read_count; a recovered failure retries from mmap_begin; n_bytes counts
down until exhausted. -/
def mmap_read_inner (fuel : Nat) (u : Userdata) (n_bytes : Nat) (events : List DrvEvent) : InnerRes :=
  match fuel with
  | 0 => ⟨u, [], 0, false, true, events⟩
  | fuel' + 1 =>
    match events with
    | [] => ⟨u, [], 0, false, true, []⟩
    | .err recovered :: rest =>
      if recovered then mmap_read_inner fuel' u n_bytes rest
      else ⟨u, [], 0, false, true, rest⟩
    | .ok granted :: rest =>
      let frames0 := n_bytes / u.frame_size
      let frames1 := min granted frames0
      let maxf := u.mempool_block_size_max / u.frame_size
      let frames := if frames1 > maxf then maxf else frames1
      let postLen := frames * u.frame_size
      match rest with
      | [] => ⟨u, [postLen], postLen, false, true, []⟩
      | .err rec2 :: rest2 =>
        if rec2 then
          let r := mmap_read_inner fuel' u n_bytes rest2
          ⟨r.u, postLen :: r.posts, postLen + r.uncommitted, r.work_done, r.fatal, r.events⟩
        else ⟨u, [postLen], postLen, false, true, rest2⟩
      | .ok _ :: rest2 =>
        let u' := { u with read_count := u.read_count + frames * u.frame_size }
        if n_bytes ≤ frames * u.frame_size then
          ⟨u', [postLen], 0, true, false, rest2⟩
        else
          let r := mmap_read_inner fuel' u' (n_bytes - frames * u.frame_size) rest2
          ⟨r.u, postLen :: r.posts, r.uncommitted, true, r.fatal, r.events⟩

/-- Outer loop of mmap_read: query avail (one event), derive left_to_record,
stop early under timer scheduling when woken by the timer with too little
recorded, stop on an empty buffer or after ten filled iterations, otherwise
run the inner transfer loop; the final sleep output is the time form of the
last left_to_record minus the process budget, as a uint64 subtraction.
The fuel argument only pads the recursion; events.length + 1 suffices. -/
def mmap_read_loop (fuel : Nat) (u : Userdata) (events : List DrvEvent) (polled : Bool)
    (max_sleep_usec process_usec : Nat) (j : Nat) : PathRes :=
  match fuel with
  | 0 => ⟨u, [], 0, false, true, 0, 0, events⟩
  | fuel' + 1 =>
    match events with
    | [] => ⟨u, [], 0, false, true, 0, 0, []⟩
    | .err recovered :: rest =>
      if recovered then mmap_read_loop fuel' u rest polled max_sleep_usec process_usec j
      else ⟨u, [], 0, false, true, 0, 0, rest⟩
    | .ok n :: rest =>
      let n_bytes := n * u.frame_size
      let lp := check_left_to_record u n_bytes
      let left := lp.1
      let u1 := lp.2
      if u1.use_tsched = true ∧ polled = false ∧
          pa_bytes_to_usec left u1.sample_spec > process_usec + max_sleep_usec / 2 then
        ⟨u1, [], 0, false, false,
          wsub64 (pa_bytes_to_usec left u1.sample_spec) process_usec, left, rest⟩
      else if n_bytes = 0 then
        ⟨u1, [], 0, false, false,
          wsub64 (pa_bytes_to_usec left u1.sample_spec) process_usec, left, rest⟩
      else if j + 1 > 10 then
        ⟨u1, [], 0, false, false,
          wsub64 (pa_bytes_to_usec left u1.sample_spec) process_usec, left, rest⟩
      else
        let inner := mmap_read_inner (rest.length + 1) u1 n_bytes rest
        if inner.fatal then
          ⟨inner.u, inner.posts, inner.uncommitted, inner.work_done, true, 0, left, inner.events⟩
        else
          let r := mmap_read_loop fuel' inner.u inner.events false max_sleep_usec process_usec (j + 1)
          ⟨r.u, inner.posts ++ r.posts, inner.uncommitted + r.uncommitted,
            inner.work_done || r.work_done, r.fatal, r.sleep, r.left, r.events⟩

/-- mmap_read: compute the wakeup budget when timer scheduling is on
(both budgets are zero otherwise) and run the outer loop. -/
def mmap_read (u : Userdata) (events : List DrvEvent) (polled : Bool) : PathRes :=
  let sp := if u.use_tsched then hw_sleep_time u else (0, 0, 0)
  mmap_read_loop (events.length + 1) u events polled sp.2.1 sp.2.2 0

/-- Inner loop of unix_read: allocate a pool-sized chunk, cap the frame
count by the bytes still to drain, snd_pcm_readi into it (one event), then
post the chunk with the exact length read and count it. -/
def unix_read_inner (fuel : Nat) (u : Userdata) (n_bytes : Nat) (events : List DrvEvent) : InnerRes :=
  match fuel with
  | 0 => ⟨u, [], 0, false, true, events⟩
  | fuel' + 1 =>
    match events with
    | [] => ⟨u, [], 0, false, true, []⟩
    | .err recovered :: rest =>
      if recovered then unix_read_inner fuel' u n_bytes rest
      else ⟨u, [], 0, false, true, rest⟩
    | .ok nread :: rest =>
      let frames0 := u.mempool_block_size_max / u.frame_size
      let frames1 := if frames0 > n_bytes / u.frame_size then n_bytes / u.frame_size else frames0
      let frames := min nread frames1
      let postLen := frames * u.frame_size
      let u' := { u with read_count := u.read_count + frames * u.frame_size }
      if n_bytes ≤ frames * u.frame_size then
        ⟨u', [postLen], 0, true, false, rest⟩
      else
        let r := unix_read_inner fuel' u' (n_bytes - frames * u.frame_size) rest
        ⟨r.u, postLen :: r.posts, 0, true, r.fatal, r.events⟩

/-- Outer loop of unix_read: identical control structure to mmap_read_loop
with the copy-based transfer loop inside. -/
def unix_read_loop (fuel : Nat) (u : Userdata) (events : List DrvEvent) (polled : Bool)
    (max_sleep_usec process_usec : Nat) (j : Nat) : PathRes :=
  match fuel with
  | 0 => ⟨u, [], 0, false, true, 0, 0, events⟩
  | fuel' + 1 =>
    match events with
    | [] => ⟨u, [], 0, false, true, 0, 0, []⟩
    | .err recovered :: rest =>
      if recovered then unix_read_loop fuel' u rest polled max_sleep_usec process_usec j
      else ⟨u, [], 0, false, true, 0, 0, rest⟩
    | .ok n :: rest =>
      let n_bytes := n * u.frame_size
      let lp := check_left_to_record u n_bytes
      let left := lp.1
      let u1 := lp.2
      if u1.use_tsched = true ∧ polled = false ∧
          pa_bytes_to_usec left u1.sample_spec > process_usec + max_sleep_usec / 2 then
        ⟨u1, [], 0, false, false,
          wsub64 (pa_bytes_to_usec left u1.sample_spec) process_usec, left, rest⟩
      else if n_bytes = 0 then
        ⟨u1, [], 0, false, false,
          wsub64 (pa_bytes_to_usec left u1.sample_spec) process_usec, left, rest⟩
      else if j + 1 > 10 then
        ⟨u1, [], 0, false, false,
          wsub64 (pa_bytes_to_usec left u1.sample_spec) process_usec, left, rest⟩
      else
        let inner := unix_read_inner (rest.length + 1) u1 n_bytes rest
        if inner.fatal then
          ⟨inner.u, inner.posts, inner.uncommitted, inner.work_done, true, 0, left, inner.events⟩
        else
          let r := unix_read_loop fuel' inner.u inner.events false max_sleep_usec process_usec (j + 1)
          ⟨r.u, inner.posts ++ r.posts, inner.uncommitted + r.uncommitted,
            inner.work_done || r.work_done, r.fatal, r.sleep, r.left, r.events⟩

/-- unix_read: wakeup budget plus the copy-based outer loop. -/
def unix_read (u : Userdata) (events : List DrvEvent) (polled : Bool) : PathRes :=
  let sp := if u.use_tsched then hw_sleep_time u else (0, 0, 0)
  unix_read_loop (events.length + 1) u events polled sp.2.1 sp.2.2 0

/-- The tri-state return value of a capture path: negative on fatal error,
1 when work was done, 0 otherwise. -/
def path_ret (r : PathRes) : Int :=
  if r.fatal then -1 else if r.work_done then 1 else 0

/-- adjust_after_overrun mutates only tsched_watermark and min_latency. -/
theorem adjust_after_overrun_preserves (u : Userdata) :
    (adjust_after_overrun u).sample_spec = u.sample_spec ∧
    (adjust_after_overrun u).read_count = u.read_count ∧
    (adjust_after_overrun u).use_tsched = u.use_tsched ∧
    (adjust_after_overrun u).frame_size = u.frame_size := by
  simp only [adjust_after_overrun, fix_tsched_watermark]
  split_ifs <;> exact ⟨rfl, rfl, rfl, rfl⟩

/-- check_left_to_record leaves the sample spec, read_count, tsched flag and
frame size unchanged. -/
theorem check_left_to_record_preserves (u : Userdata) (n : Nat) :
    ((check_left_to_record u n).2).sample_spec = u.sample_spec ∧
    ((check_left_to_record u n).2).read_count = u.read_count ∧
    ((check_left_to_record u n).2).use_tsched = u.use_tsched ∧
    ((check_left_to_record u n).2).frame_size = u.frame_size := by
  obtain ⟨h1, h2, h3, h4⟩ := adjust_after_overrun_preserves u
  simp only [check_left_to_record]
  split_ifs <;> simp_all


/-- The mmap transfer loop never changes the sample spec. -/
theorem mmap_read_inner_ss (fuel : Nat) :
    ∀ (u : Userdata) (n_bytes : Nat) (events : List DrvEvent),
    (mmap_read_inner fuel u n_bytes events).u.sample_spec = u.sample_spec := by
  induction fuel with
  | zero => intro u n es; simp [mmap_read_inner]
  | succ fuel ih =>
    intro u n es
    rcases es with _ | ⟨ev, rest⟩
    · simp [mmap_read_inner]
    rcases ev with g | r
    · rcases rest with _ | ⟨c, rest2⟩
      · simp [mmap_read_inner]
      rcases c with cn | cr <;> simp only [mmap_read_inner] <;> split_ifs <;> simp [ih]
    · simp only [mmap_read_inner]
      split_ifs <;> simp [ih]

/-- The copy transfer loop never changes the sample spec. -/
theorem unix_read_inner_ss (fuel : Nat) :
    ∀ (u : Userdata) (n_bytes : Nat) (events : List DrvEvent),
    (unix_read_inner fuel u n_bytes events).u.sample_spec = u.sample_spec := by
  induction fuel with
  | zero => intro u n es; simp [unix_read_inner]
  | succ fuel ih =>
    intro u n es
    rcases es with _ | ⟨ev, rest⟩
    · simp [unix_read_inner]
    rcases ev with g | r <;> simp only [unix_read_inner] <;> split_ifs <;> simp [ih]

/-- In the mmap transfer loop the bytes with failed commits are among the
posted bytes. -/
theorem mmap_read_inner_unc_le (fuel : Nat) :
    ∀ (u : Userdata) (n_bytes : Nat) (events : List DrvEvent),
    (mmap_read_inner fuel u n_bytes events).uncommitted ≤
      (mmap_read_inner fuel u n_bytes events).posts.sum := by
  induction fuel with
  | zero => intro u n es; simp [mmap_read_inner]
  | succ fuel ih =>
    intro u n es
    rcases es with _ | ⟨ev, rest⟩
    · simp [mmap_read_inner]
    rcases ev with g | r
    · rcases rest with _ | ⟨c, rest2⟩
      · simp [mmap_read_inner]
      rcases c with cn | cr
      · have ihA := ih { u with read_count := u.read_count + u.mempool_block_size_max / u.frame_size * u.frame_size } (n - u.mempool_block_size_max / u.frame_size * u.frame_size) rest2
        have ihB := ih { u with read_count := u.read_count + min g (n / u.frame_size) * u.frame_size } (n - min g (n / u.frame_size) * u.frame_size) rest2
        simp only [mmap_read_inner, List.sum_cons, List.sum_nil]
        split_ifs <;> (try simp only [List.sum_cons, List.sum_nil]) <;> omega
      · have ihC := ih u n rest2
        simp only [mmap_read_inner, List.sum_cons, List.sum_nil]
        split_ifs <;> simp_all <;> omega
    · have ihD := ih u n rest
      simp only [mmap_read_inner]
      split_ifs <;> simp_all

/-- Read-count accounting for the mmap transfer loop: the counted bytes are
the posted bytes minus the uncommitted ones. -/
theorem mmap_read_inner_count (fuel : Nat) :
    ∀ (u : Userdata) (n_bytes : Nat) (events : List DrvEvent),
    (mmap_read_inner fuel u n_bytes events).u.read_count +
        (mmap_read_inner fuel u n_bytes events).uncommitted =
      u.read_count + (mmap_read_inner fuel u n_bytes events).posts.sum := by
  induction fuel with
  | zero => intro u n es; simp [mmap_read_inner]
  | succ fuel ih =>
    intro u n es
    rcases es with _ | ⟨ev, rest⟩
    · simp [mmap_read_inner]
    rcases ev with g | r
    · rcases rest with _ | ⟨c, rest2⟩
      · simp [mmap_read_inner]
      rcases c with cn | cr
      · have ihA := ih { u with read_count := u.read_count + u.mempool_block_size_max / u.frame_size * u.frame_size } (n - u.mempool_block_size_max / u.frame_size * u.frame_size) rest2
        have ihB := ih { u with read_count := u.read_count + min g (n / u.frame_size) * u.frame_size } (n - min g (n / u.frame_size) * u.frame_size) rest2
        dsimp only at ihA ihB
        simp only [mmap_read_inner, List.sum_cons, List.sum_nil]
        split_ifs <;> (try simp only [List.sum_cons, List.sum_nil]) <;> omega
      · have ihC := ih u n rest2
        simp only [mmap_read_inner, List.sum_cons, List.sum_nil]
        split_ifs <;> (try simp only [List.sum_cons, List.sum_nil]) <;> omega
    · have ihD := ih u n rest
      simp only [mmap_read_inner]
      split_ifs <;> (try simp only [List.sum_cons, List.sum_nil]) <;> omega

/-- The copy transfer loop never leaves anything uncommitted. -/
theorem unix_read_inner_unc (fuel : Nat) :
    ∀ (u : Userdata) (n_bytes : Nat) (events : List DrvEvent),
    (unix_read_inner fuel u n_bytes events).uncommitted = 0 := by
  induction fuel with
  | zero => intro u n es; simp [unix_read_inner]
  | succ fuel ih =>
    intro u n es
    rcases es with _ | ⟨ev, rest⟩
    · simp [unix_read_inner]
    rcases ev with g | r <;> simp only [unix_read_inner] <;> split_ifs <;> simp [ih]

/-- Read-count accounting for the copy transfer loop: every posted byte is
counted. -/
theorem unix_read_inner_count (fuel : Nat) :
    ∀ (u : Userdata) (n_bytes : Nat) (events : List DrvEvent),
    (unix_read_inner fuel u n_bytes events).u.read_count =
      u.read_count + (unix_read_inner fuel u n_bytes events).posts.sum := by
  induction fuel with
  | zero => intro u n es; simp [unix_read_inner]
  | succ fuel ih =>
    intro u n es
    rcases es with _ | ⟨ev, rest⟩
    · simp [unix_read_inner]
    rcases ev with g | r
    · have ihA := ih { u with read_count := u.read_count + min g (n / u.frame_size) * u.frame_size } (n - min g (n / u.frame_size) * u.frame_size) rest
      have ihB := ih { u with read_count := u.read_count + min g (u.mempool_block_size_max / u.frame_size) * u.frame_size } (n - min g (u.mempool_block_size_max / u.frame_size) * u.frame_size) rest
      dsimp only at ihA ihB
      simp only [unix_read_inner, List.sum_cons, List.sum_nil]
      split_ifs <;> (try simp only [List.sum_cons, List.sum_nil]) <;> omega
    · have ihD := ih u n rest
      simp only [unix_read_inner]
      split_ifs <;> (try simp only [List.sum_cons, List.sum_nil]) <;> omega

/-- The mmap outer loop never changes the sample spec. -/
theorem mmap_read_loop_ss (fuel : Nat) :
    ∀ (u : Userdata) (events : List DrvEvent) (polled : Bool) (msl pr j : Nat),
    (mmap_read_loop fuel u events polled msl pr j).u.sample_spec = u.sample_spec := by
  induction fuel with
  | zero => intros; simp [mmap_read_loop]
  | succ fuel ih =>
    intro u events polled msl pr j
    rcases events with _ | ⟨ev, rest⟩
    · simp [mmap_read_loop]
    rcases ev with n | rec
    · have hck := (check_left_to_record_preserves u (n * u.frame_size)).1
      have hin := mmap_read_inner_ss (rest.length + 1) (check_left_to_record u (n * u.frame_size)).2 (n * u.frame_size) rest
      have hih := ih (mmap_read_inner (rest.length + 1) (check_left_to_record u (n * u.frame_size)).2 (n * u.frame_size) rest).u (mmap_read_inner (rest.length + 1) (check_left_to_record u (n * u.frame_size)).2 (n * u.frame_size) rest).events false msl pr (j + 1)
      simp only [mmap_read_loop]
      split_ifs <;> first
        | exact hck
        | exact hin.trans hck
        | exact hih.trans (hin.trans hck)
    · simp only [mmap_read_loop]
      split_ifs with h
      · exact ih u rest polled msl pr j
      · rfl

/-- The copy outer loop never changes the sample spec. -/
theorem unix_read_loop_ss (fuel : Nat) :
    ∀ (u : Userdata) (events : List DrvEvent) (polled : Bool) (msl pr j : Nat),
    (unix_read_loop fuel u events polled msl pr j).u.sample_spec = u.sample_spec := by
  induction fuel with
  | zero => intros; simp [unix_read_loop]
  | succ fuel ih =>
    intro u events polled msl pr j
    rcases events with _ | ⟨ev, rest⟩
    · simp [unix_read_loop]
    rcases ev with n | rec
    · have hck := (check_left_to_record_preserves u (n * u.frame_size)).1
      have hin := unix_read_inner_ss (rest.length + 1) (check_left_to_record u (n * u.frame_size)).2 (n * u.frame_size) rest
      have hih := ih (unix_read_inner (rest.length + 1) (check_left_to_record u (n * u.frame_size)).2 (n * u.frame_size) rest).u (unix_read_inner (rest.length + 1) (check_left_to_record u (n * u.frame_size)).2 (n * u.frame_size) rest).events false msl pr (j + 1)
      simp only [unix_read_loop]
      split_ifs <;> first
        | exact hck
        | exact hin.trans hck
        | exact hih.trans (hin.trans hck)
    · simp only [unix_read_loop]
      split_ifs with h
      · exact ih u rest polled msl pr j
      · rfl

/-- When the mmap outer loop returns non-fatally, the sleep output is the
time form of the final left_to_record minus the process budget, truncating
as uint64. -/
theorem mmap_read_loop_sleep (fuel : Nat) :
    ∀ (u : Userdata) (events : List DrvEvent) (polled : Bool) (msl pr j : Nat),
    (mmap_read_loop fuel u events polled msl pr j).fatal = false →
    (mmap_read_loop fuel u events polled msl pr j).sleep =
      wsub64 (pa_bytes_to_usec (mmap_read_loop fuel u events polled msl pr j).left
        (mmap_read_loop fuel u events polled msl pr j).u.sample_spec) pr := by
  induction fuel with
  | zero => intro u events polled msl pr j h; exact Bool.noConfusion h
  | succ fuel ih =>
    intro u events polled msl pr j
    rcases events with _ | ⟨ev, rest⟩
    · intro h; exact Bool.noConfusion h
    rcases ev with n | rec
    · have hih := ih (mmap_read_inner (rest.length + 1) (check_left_to_record u (n * u.frame_size)).2 (n * u.frame_size) rest).u (mmap_read_inner (rest.length + 1) (check_left_to_record u (n * u.frame_size)).2 (n * u.frame_size) rest).events false msl pr (j + 1)
      simp only [mmap_read_loop]
      split_ifs <;> first
        | exact hih
        | (intro h2; first | rfl | exact Bool.noConfusion h2 | exact h2.elim)
    · simp only [mmap_read_loop]
      split_ifs with h
      · exact ih u rest polled msl pr j
      · intro h2; first | exact Bool.noConfusion h2 | exact h2.elim

/-- When the copy outer loop returns non-fatally, the sleep output is the
time form of the final left_to_record minus the process budget, truncating
as uint64. -/
theorem unix_read_loop_sleep (fuel : Nat) :
    ∀ (u : Userdata) (events : List DrvEvent) (polled : Bool) (msl pr j : Nat),
    (unix_read_loop fuel u events polled msl pr j).fatal = false →
    (unix_read_loop fuel u events polled msl pr j).sleep =
      wsub64 (pa_bytes_to_usec (unix_read_loop fuel u events polled msl pr j).left
        (unix_read_loop fuel u events polled msl pr j).u.sample_spec) pr := by
  induction fuel with
  | zero => intro u events polled msl pr j h; exact Bool.noConfusion h
  | succ fuel ih =>
    intro u events polled msl pr j
    rcases events with _ | ⟨ev, rest⟩
    · intro h; exact Bool.noConfusion h
    rcases ev with n | rec
    · have hih := ih (unix_read_inner (rest.length + 1) (check_left_to_record u (n * u.frame_size)).2 (n * u.frame_size) rest).u (unix_read_inner (rest.length + 1) (check_left_to_record u (n * u.frame_size)).2 (n * u.frame_size) rest).events false msl pr (j + 1)
      simp only [unix_read_loop]
      split_ifs <;> first
        | exact hih
        | (intro h2; first | rfl | exact Bool.noConfusion h2 | exact h2.elim)
    · simp only [unix_read_loop]
      split_ifs with h
      · exact ih u rest polled msl pr j
      · intro h2; first | exact Bool.noConfusion h2 | exact h2.elim

/-- Uncommitted bytes of the mmap outer loop are among the posted bytes. -/
theorem mmap_read_loop_unc_le (fuel : Nat) :
    ∀ (u : Userdata) (events : List DrvEvent) (polled : Bool) (msl pr j : Nat),
    (mmap_read_loop fuel u events polled msl pr j).uncommitted ≤
      (mmap_read_loop fuel u events polled msl pr j).posts.sum := by
  induction fuel with
  | zero => intros; simp [mmap_read_loop]
  | succ fuel ih =>
    intro u events polled msl pr j
    rcases events with _ | ⟨ev, rest⟩
    · simp [mmap_read_loop]
    rcases ev with n | rec
    · have hin := mmap_read_inner_unc_le (rest.length + 1) (check_left_to_record u (n * u.frame_size)).2 (n * u.frame_size) rest
      have hih := ih (mmap_read_inner (rest.length + 1) (check_left_to_record u (n * u.frame_size)).2 (n * u.frame_size) rest).u (mmap_read_inner (rest.length + 1) (check_left_to_record u (n * u.frame_size)).2 (n * u.frame_size) rest).events false msl pr (j + 1)
      simp only [mmap_read_loop]
      split_ifs <;> (try simp only [List.sum_cons, List.sum_nil, List.sum_append]) <;> omega
    · have hih := ih u rest polled msl pr j
      simp only [mmap_read_loop]
      split_ifs <;> (try simp only [List.sum_cons, List.sum_nil]) <;> omega

/-- Read-count accounting across the mmap outer loop. -/
theorem mmap_read_loop_count (fuel : Nat) :
    ∀ (u : Userdata) (events : List DrvEvent) (polled : Bool) (msl pr j : Nat),
    (mmap_read_loop fuel u events polled msl pr j).u.read_count +
        (mmap_read_loop fuel u events polled msl pr j).uncommitted =
      u.read_count + (mmap_read_loop fuel u events polled msl pr j).posts.sum := by
  induction fuel with
  | zero => intros; simp [mmap_read_loop]
  | succ fuel ih =>
    intro u events polled msl pr j
    rcases events with _ | ⟨ev, rest⟩
    · simp [mmap_read_loop]
    rcases ev with n | rec
    · have hck := (check_left_to_record_preserves u (n * u.frame_size)).2.1
      have hin := mmap_read_inner_count (rest.length + 1) (check_left_to_record u (n * u.frame_size)).2 (n * u.frame_size) rest
      have hinu := mmap_read_inner_unc_le (rest.length + 1) (check_left_to_record u (n * u.frame_size)).2 (n * u.frame_size) rest
      have hih := ih (mmap_read_inner (rest.length + 1) (check_left_to_record u (n * u.frame_size)).2 (n * u.frame_size) rest).u (mmap_read_inner (rest.length + 1) (check_left_to_record u (n * u.frame_size)).2 (n * u.frame_size) rest).events false msl pr (j + 1)
      simp only [mmap_read_loop]
      split_ifs <;> (try simp only [List.sum_cons, List.sum_nil, List.sum_append]) <;> omega
    · have hih := ih u rest polled msl pr j
      simp only [mmap_read_loop]
      split_ifs <;> (try simp only [List.sum_cons, List.sum_nil]) <;> omega

/-- The copy outer loop never leaves anything uncommitted. -/
theorem unix_read_loop_unc (fuel : Nat) :
    ∀ (u : Userdata) (events : List DrvEvent) (polled : Bool) (msl pr j : Nat),
    (unix_read_loop fuel u events polled msl pr j).uncommitted = 0 := by
  induction fuel with
  | zero => intros; simp [unix_read_loop]
  | succ fuel ih =>
    intro u events polled msl pr j
    rcases events with _ | ⟨ev, rest⟩
    · simp [unix_read_loop]
    rcases ev with n | rec
    · have hin := unix_read_inner_unc (rest.length + 1) (check_left_to_record u (n * u.frame_size)).2 (n * u.frame_size) rest
      have hih := ih (unix_read_inner (rest.length + 1) (check_left_to_record u (n * u.frame_size)).2 (n * u.frame_size) rest).u (unix_read_inner (rest.length + 1) (check_left_to_record u (n * u.frame_size)).2 (n * u.frame_size) rest).events false msl pr (j + 1)
      simp only [unix_read_loop]
      split_ifs <;> (try simp only [List.sum_cons, List.sum_nil, List.sum_append]) <;> omega
    · have hih := ih u rest polled msl pr j
      simp only [unix_read_loop]
      split_ifs <;> (try simp only [List.sum_cons, List.sum_nil]) <;> omega

/-- Read-count accounting across the copy outer loop: every posted byte is
counted. -/
theorem unix_read_loop_count (fuel : Nat) :
    ∀ (u : Userdata) (events : List DrvEvent) (polled : Bool) (msl pr j : Nat),
    (unix_read_loop fuel u events polled msl pr j).u.read_count =
      u.read_count + (unix_read_loop fuel u events polled msl pr j).posts.sum := by
  induction fuel with
  | zero => intros; simp [unix_read_loop]
  | succ fuel ih =>
    intro u events polled msl pr j
    rcases events with _ | ⟨ev, rest⟩
    · simp [unix_read_loop]
    rcases ev with n | rec
    · have hck := (check_left_to_record_preserves u (n * u.frame_size)).2.1
      have hin := unix_read_inner_count (rest.length + 1) (check_left_to_record u (n * u.frame_size)).2 (n * u.frame_size) rest
      have hih := ih (unix_read_inner (rest.length + 1) (check_left_to_record u (n * u.frame_size)).2 (n * u.frame_size) rest).u (unix_read_inner (rest.length + 1) (check_left_to_record u (n * u.frame_size)).2 (n * u.frame_size) rest).events false msl pr (j + 1)
      simp only [unix_read_loop]
      split_ifs <;> (try simp only [List.sum_cons, List.sum_nil, List.sum_append]) <;> omega
    · have hih := ih u rest polled msl pr j
      simp only [unix_read_loop]
      split_ifs <;> (try simp only [List.sum_cons, List.sum_nil]) <;> omega

/-- Claim C7 (amended): read_count never decreases; the copy path counts
exactly the posted bytes; the mmap path counts the posted bytes minus those
whose mmap_commit failed. -/
theorem read_count_accounting (u : Userdata) (events : List DrvEvent) (polled : Bool) :
    ((mmap_read u events polled).u.read_count + (mmap_read u events polled).uncommitted =
       u.read_count + ((mmap_read u events polled).posts).sum ∧
     (mmap_read u events polled).uncommitted ≤ ((mmap_read u events polled).posts).sum ∧
     u.read_count ≤ (mmap_read u events polled).u.read_count) ∧
    ((unix_read u events polled).u.read_count =
       u.read_count + ((unix_read u events polled).posts).sum ∧
     (unix_read u events polled).uncommitted = 0 ∧
     u.read_count ≤ (unix_read u events polled).u.read_count) := by
  have h1 := mmap_read_loop_count (events.length + 1) u events polled
    (if u.use_tsched then hw_sleep_time u else (0, 0, 0)).2.1
    (if u.use_tsched then hw_sleep_time u else (0, 0, 0)).2.2 0
  have h2 := mmap_read_loop_unc_le (events.length + 1) u events polled
    (if u.use_tsched then hw_sleep_time u else (0, 0, 0)).2.1
    (if u.use_tsched then hw_sleep_time u else (0, 0, 0)).2.2 0
  have h3 := unix_read_loop_count (events.length + 1) u events polled
    (if u.use_tsched then hw_sleep_time u else (0, 0, 0)).2.1
    (if u.use_tsched then hw_sleep_time u else (0, 0, 0)).2.2 0
  have h4 := unix_read_loop_unc (events.length + 1) u events polled
    (if u.use_tsched then hw_sleep_time u else (0, 0, 0)).2.1
    (if u.use_tsched then hw_sleep_time u else (0, 0, 0)).2.2 0
  simp only [mmap_read, unix_read]
  exact ⟨⟨h1, h2, by omega⟩, h3, h4, by omega⟩

/-- An oracle trace on which a commit fails once and recovery succeeds: the
same region is posted twice but counted once. -/
def c7Trace : List DrvEvent :=
  [DrvEvent.ok 2400, DrvEvent.ok 2400, DrvEvent.err true,
   DrvEvent.ok 2400, DrvEvent.ok 0, DrvEvent.ok 0]

/-- Counterexample to claim C7 as stated: on c7Trace the mmap path returns
non-fatally with 19200 bytes posted downstream but read_count grown by only
9600, because the chunk whose snd_pcm_mmap_commit failed was already posted
and is never counted. -/
theorem read_count_mismatch_counterexample :
    (mmap_read uDemo c7Trace true).fatal = false ∧
    path_ret (mmap_read uDemo c7Trace true) = 1 ∧
    ((mmap_read uDemo c7Trace true).posts).sum = 19200 ∧
    (mmap_read uDemo c7Trace true).u.read_count = uDemo.read_count + 9600 ∧
    ¬((mmap_read uDemo c7Trace true).u.read_count =
        uDemo.read_count + ((mmap_read uDemo c7Trace true).posts).sum) := by
  decide

/-- Claim C3 (amended): every non-fatal return of the mmap capture path sets
sleep_usec to the time form of the final left_to_record minus the process
budget as a uint64 (wrapping) subtraction, and returns 1 exactly when some
commit succeeded (work_done) and 0 otherwise. -/
theorem mmap_sleep_formula (u : Userdata) (events : List DrvEvent) (polled : Bool)
    (h : (mmap_read u events polled).fatal = false) :
    (mmap_read u events polled).sleep =
      wsub64 (pa_bytes_to_usec (mmap_read u events polled).left
          (mmap_read u events polled).u.sample_spec)
        (if u.use_tsched then hw_sleep_time u else (0, 0, 0)).2.2 ∧
    path_ret (mmap_read u events polled) =
      (if (mmap_read u events polled).work_done = true then 1 else 0) := by
  constructor
  · have hs := mmap_read_loop_sleep (events.length + 1) u events polled
      (if u.use_tsched then hw_sleep_time u else (0, 0, 0)).2.1
      (if u.use_tsched then hw_sleep_time u else (0, 0, 0)).2.2 0
    simp only [mmap_read] at h ⊢
    exact hs h
  · simp [path_ret, h]

/-- Witness for mmap_sleep_formula: a wake that finds the buffer empty. -/
theorem mmap_sleep_formula_witness :
    (mmap_read uDemo [DrvEvent.ok 0] true).fatal = false ∧
    (mmap_read uDemo [DrvEvent.ok 0] true).sleep =
      wsub64 (pa_bytes_to_usec (mmap_read uDemo [DrvEvent.ok 0] true).left
          (mmap_read uDemo [DrvEvent.ok 0] true).u.sample_spec)
        (if uDemo.use_tsched then hw_sleep_time uDemo else (0, 0, 0)).2.2 :=
  ⟨by decide, (mmap_sleep_formula uDemo [DrvEvent.ok 0] true (by decide)).1⟩

/-- An oracle trace that keeps the device filling for eleven iterations, so
the path leaves through the ten-iterations limit with only 400 bytes of
headroom left while the process budget is 2000 microseconds. -/
def c3Trace : List DrvEvent :=
  (List.replicate 10 [DrvEvent.ok 2400, DrvEvent.ok 2400, DrvEvent.ok 0]).join ++
    [DrvEvent.ok 2400]

/-- Counterexample to claim C3 as stated: on c3Trace the mmap path returns
non-fatally (return value 1) with left_to_record = 400 and process budget
2000; the C uint64 subtraction wraps, so sleep_usec is 2^64 - 1600 and not
the exact difference 400 - 2000. -/
theorem mmap_sleep_wrap_counterexample :
    (mmap_read uDemo c3Trace true).fatal = false ∧
    path_ret (mmap_read uDemo c3Trace true) = 1 ∧
    (mmap_read uDemo c3Trace true).left = 400 ∧
    ((mmap_read uDemo c3Trace true).sleep : Int) ≠
      (pa_bytes_to_usec (mmap_read uDemo c3Trace true).left uDemo.sample_spec : Int) -
        ((if uDemo.use_tsched then hw_sleep_time uDemo else (0, 0, 0)).2.2 : Int) := by
  decide

/-- Claim C4: a wake of either capture path under timer scheduling entered
with polled = false, whose first avail query leaves a left_to_record whose
time form exceeds process + sleep/2, posts nothing downstream and leaves
read_count unchanged. -/
theorem early_wakeup_no_post (u : Userdata) (n : Nat) (rest : List DrvEvent)
    (ht : u.use_tsched = true)
    (hc : pa_bytes_to_usec (check_left_to_record u (n * u.frame_size)).1 u.sample_spec >
      (hw_sleep_time u).2.2 + (hw_sleep_time u).2.1 / 2) :
    (mmap_read u (DrvEvent.ok n :: rest) false).posts = [] ∧
    (mmap_read u (DrvEvent.ok n :: rest) false).u.read_count = u.read_count ∧
    (unix_read u (DrvEvent.ok n :: rest) false).posts = [] ∧
    (unix_read u (DrvEvent.ok n :: rest) false).u.read_count = u.read_count := by
  obtain ⟨hss, hrc, hut, -⟩ := check_left_to_record_preserves u (n * u.frame_size)
  have hcond : (check_left_to_record u (n * u.frame_size)).2.use_tsched = true ∧
      True ∧
      pa_bytes_to_usec (check_left_to_record u (n * u.frame_size)).1
          (check_left_to_record u (n * u.frame_size)).2.sample_spec >
        (hw_sleep_time u).2.2 + (hw_sleep_time u).2.1 / 2 := by
    rw [hss, hut]
    exact ⟨ht, trivial, hc⟩
  refine ⟨?_, ?_, ?_, ?_⟩ <;>
    simp only [mmap_read, unix_read, ht, if_true, mmap_read_loop, unix_read_loop,
      List.length_cons] <;>
    rw [if_pos hcond] <;>
    first | rfl | exact hrc

/-- Witness for early_wakeup_no_post: a timer wake with only 400 bytes in a
10000-byte buffer, far below the 6000 microsecond threshold. -/
theorem early_wakeup_no_post_witness :
    uDemo.use_tsched = true ∧
    pa_bytes_to_usec (check_left_to_record uDemo (100 * uDemo.frame_size)).1 uDemo.sample_spec >
      (hw_sleep_time uDemo).2.2 + (hw_sleep_time uDemo).2.1 / 2 ∧
    (mmap_read uDemo [DrvEvent.ok 100] false).posts = [] ∧
    (unix_read uDemo [DrvEvent.ok 100] false).u.read_count = uDemo.read_count :=
  ⟨by decide, by decide,
    (early_wakeup_no_post uDemo 100 [] (by decide) (by decide)).1,
    (early_wakeup_no_post uDemo 100 [] (by decide) (by decide)).2.2.2⟩

/-- update_sw_params leaves the observable configuration (sample spec,
fragment count and size, mmap and tsched flags) and the handle untouched. -/
theorem sw_latency_adjust_preserves (u0 : Userdata) :
    (sw_latency_adjust u0).sample_spec = u0.sample_spec ∧
    (sw_latency_adjust u0).nfragments = u0.nfragments ∧
    (sw_latency_adjust u0).fragment_size = u0.fragment_size ∧
    (sw_latency_adjust u0).use_mmap = u0.use_mmap ∧
    (sw_latency_adjust u0).use_tsched = u0.use_tsched ∧
    (sw_latency_adjust u0).pcm_handle = u0.pcm_handle := by
  unfold sw_latency_adjust
  cases u0.requested_latency <;> exact ⟨rfl, rfl, rfl, rfl, rfl, rfl⟩

/-- update_sw_params leaves the observable configuration (sample spec,
fragment count and size, mmap and tsched flags) and the handle untouched. -/
theorem update_sw_params_preserves (u : Userdata) (ok : Bool) :
    (update_sw_params u ok).1.sample_spec = u.sample_spec ∧
    (update_sw_params u ok).1.nfragments = u.nfragments ∧
    (update_sw_params u ok).1.fragment_size = u.fragment_size ∧
    (update_sw_params u ok).1.use_mmap = u.use_mmap ∧
    (update_sw_params u ok).1.use_tsched = u.use_tsched ∧
    (update_sw_params u ok).1.pcm_handle = u.pcm_handle := by
  have e : (update_sw_params u ok).1 =
      if u.use_tsched = true then
        fix_tsched_watermark (fix_min_sleep_wakeup (sw_latency_adjust { u with hwbuf_unused := 0 }))
      else { u with hwbuf_unused := 0 } := by
    cases ok <;> rfl
  rw [e]
  by_cases ht : u.use_tsched = true
  · rw [if_pos ht]
    obtain ⟨q1, q2, q3, q4, q5, q6⟩ := sw_latency_adjust_preserves { u with hwbuf_unused := 0 }
    exact ⟨q1, q2, q3, q4, q5, q6⟩
  · rw [if_neg ht]
    exact ⟨rfl, rfl, rfl, rfl, rfl, rfl⟩

/-- The values negotiated by pa_alsa_set_hw_params on resume: sample spec,
fragment count, period size in frames, and the granted mmap and tsched
access flags. -/
structure HwParamsResult where
  ss : SampleSpec
  nfrags : Nat
  period_size : Nat
  b : Bool
  d : Bool
deriving DecidableEq, Repr

/-- Oracle for the driver calls of unsuspend: snd_pcm_open outcome, the
pa_alsa_set_hw_params outcome (none is failure), and the outcomes of
pa_alsa_set_sw_params and build_pollfd. -/
structure ResumeOracle where
  open_ok : Bool
  hw_result : Option HwParamsResult
  sw_ok : Bool
  poll_ok : Bool
deriving DecidableEq, Repr

/-- unsuspend: reopen the device, renegotiate hardware parameters with the
pre-suspend geometry, verify the negotiation returned identical values
(access flags, sample spec, fragment count, fragment size), re-apply
software parameters and rebuild the poll set; any failure closes the
reopened handle and returns -1. -/
def unsuspend (u : Userdata) (o : ResumeOracle) : Userdata × Int :=
  if o.open_ok = false then ({ u with pcm_handle := false }, -1)
  else
    match o.hw_result with
    | none => ({ u with pcm_handle := false }, -1)
    | some hr =>
      if hr.b ≠ u.use_mmap ∨ hr.d ≠ u.use_tsched then ({ u with pcm_handle := false }, -1)
      else if hr.ss ≠ u.sample_spec then ({ u with pcm_handle := false }, -1)
      else if hr.nfrags ≠ u.nfragments ∨ hr.period_size * u.frame_size ≠ u.fragment_size then
        ({ u with pcm_handle := false }, -1)
      else
        let us := update_sw_params { u with pcm_handle := true } o.sw_ok
        if us.2.2 < 0 then ({ us.1 with pcm_handle := false }, -1)
        else if o.poll_ok = false then ({ us.1 with pcm_handle := false }, -1)
        else (us.1, 0)

/-- Claim C6: resume either succeeds with 0 or fails with -1; on every
failure path the reopened handle is closed again; success happens only when
the negotiation returned exactly the pre-suspend sample spec, fragment
count, fragment size, mmap flag and tsched flag, and it leaves that
observable configuration bitwise equal to its pre-suspend value. -/
theorem resume_verified (u : Userdata) (o : ResumeOracle) :
    ((unsuspend u o).2 = 0 ∨ (unsuspend u o).2 = -1) ∧
    ((unsuspend u o).2 = -1 → (unsuspend u o).1.pcm_handle = false) ∧
    ((unsuspend u o).2 = 0 →
      (unsuspend u o).1.pcm_handle = true ∧
      (unsuspend u o).1.sample_spec = u.sample_spec ∧
      (unsuspend u o).1.nfragments = u.nfragments ∧
      (unsuspend u o).1.fragment_size = u.fragment_size ∧
      (unsuspend u o).1.use_mmap = u.use_mmap ∧
      (unsuspend u o).1.use_tsched = u.use_tsched ∧
      ∃ hr, o.hw_result = some hr ∧ hr.ss = u.sample_spec ∧
        hr.nfrags = u.nfragments ∧ hr.period_size * u.frame_size = u.fragment_size ∧
        hr.b = u.use_mmap ∧ hr.d = u.use_tsched) := by
  obtain ⟨oo, ohw, osw, op⟩ := o
  obtain ⟨p1, p2, p3, p4, p5, p6⟩ := update_sw_params_preserves { u with pcm_handle := true } osw
  have hneg : ¬((-1 : Int) = 0) := by decide
  have hneg2 : ¬((0 : Int) = -1) := by decide
  rcases ohw with _ | hr
  · simp only [unsuspend]
    split_ifs <;> exact ⟨Or.inr rfl, fun _ => rfl, fun h => absurd h hneg⟩
  · simp only [unsuspend]
    by_cases h1 : oo = false
    · rw [if_pos h1]
      exact ⟨Or.inr rfl, fun _ => rfl, fun h => absurd h hneg⟩
    rw [if_neg h1]
    by_cases h2 : hr.b ≠ u.use_mmap ∨ hr.d ≠ u.use_tsched
    · rw [if_pos h2]
      exact ⟨Or.inr rfl, fun _ => rfl, fun h => absurd h hneg⟩
    rw [if_neg h2]
    by_cases h3 : hr.ss ≠ u.sample_spec
    · rw [if_pos h3]
      exact ⟨Or.inr rfl, fun _ => rfl, fun h => absurd h hneg⟩
    rw [if_neg h3]
    by_cases h4 : hr.nfrags ≠ u.nfragments ∨ hr.period_size * u.frame_size ≠ u.fragment_size
    · rw [if_pos h4]
      exact ⟨Or.inr rfl, fun _ => rfl, fun h => absurd h hneg⟩
    rw [if_neg h4]
    by_cases h5 : (update_sw_params { u with pcm_handle := true } osw).2.2 < 0
    · rw [if_pos h5]
      exact ⟨Or.inr rfl, fun _ => rfl, fun h => absurd h hneg⟩
    rw [if_neg h5]
    by_cases h6 : op = false
    · rw [if_pos h6]
      exact ⟨Or.inr rfl, fun _ => rfl, fun h => absurd h hneg⟩
    rw [if_neg h6]
    simp only [not_or, not_not] at h2 h3 h4
    exact ⟨Or.inl rfl, fun h => absurd h hneg2, fun _ =>
      ⟨p6, p1, p2, p3, p4, p5, hr, rfl, h3, h4.1, h4.2, h2.1, h2.2⟩⟩

/-- A resume oracle that negotiates exactly the demo geometry back. -/
def oDemo : ResumeOracle :=
  { open_ok := true
    hw_result := some
      { ss := uDemo.sample_spec, nfrags := 4, period_size := 625, b := true, d := true }
    sw_ok := true
    poll_ok := true }

/-- Witness for resume_verified: the demo resume succeeds and preserves the
observable configuration. -/
theorem resume_verified_witness :
    (unsuspend uDemo oDemo).2 = 0 ∧
    (unsuspend uDemo oDemo).1.fragment_size = uDemo.fragment_size ∧
    (unsuspend uDemo oDemo).1.use_tsched = uDemo.use_tsched :=
  ⟨by decide, ((resume_verified uDemo oDemo).2.2 (by decide)).2.2.2.1,
    ((resume_verified uDemo oDemo).2.2 (by decide)).2.2.2.2.2.1⟩
